import Mathlib

/-!
Verification development for the autojson package: a reflection-based
adapter that turns a service method into an `http.HandlerFunc`.

The Go source file concatenates three variants of the package.  Variant 1
(`reflect_in`, `reflect_out`, `NewHandler`, source lines 1-211) is embedded
first; variant 2 (`reflectArgs`, `reflectReturns`, `NewHandler`, lines
212-415) and variant 3 (classification inlined into `NewHandler`, lines
416-600) follow.  Go's `reflect` types and values are modelled by the
`GoType` and `GoValue` inductives; machine integers that hold argument
indices and HTTP status codes are modelled as `Int` (the code only ever
stores -1 or small positive values in them, no overflow arises).  The JSON
codec is a black box in the source's design; it is modelled by the
executable `jsonEncode` and by the `decodeBody` field of a `Request`.
-/

namespace Autojson

/-- Equality of classification results is decidable. -/
instance {ε α : Type} [DecidableEq ε] [DecidableEq α] : DecidableEq (Except ε α) :=
  fun a b =>
    match a, b with
    | .ok x, .ok y =>
      if h : x = y then .isTrue (by rw [h]) else .isFalse (by simp [h])
    | .error x, .error y =>
      if h : x = y then .isTrue (by rw [h]) else .isFalse (by simp [h])
    | .ok _, .error _ => .isFalse (by simp)
    | .error _, .ok _ => .isFalse (by simp)

/-- A Go type, as far as the classifier distinguishes them.  The special
constants of the source (`type_context`, `type_http_req`, `type_http_res`,
`type_error`, `type_int`, lines 12-18) are the first five constructors;
`ptr t` is the pointer type `*t` (`reflect.Kind == Ptr`); every other type
is `named s`. -/
inductive GoType where
  | context
  | httpRequest
  | httpResponseWriter
  | goError
  | goInt
  | ptr (t : GoType)
  | named (s : String)
deriving DecidableEq

/-- `Kind() == reflect.Ptr` test used at source lines 140-144. -/
def GoType.isPtr : GoType → Bool
  | .ptr _ => true
  | _ => false

/-- Argument-role indices of variant 1 (source lines 20-25); `-1` means the
role is unassigned, exactly as in the source. -/
structure in_idx where
  ctx : Int
  req : Int
  http_req : Int
  http_res : Int
deriving DecidableEq

/-- Return-role indices of variant 1 (source lines 27-31). -/
structure out_idx where
  res : Int
  err : Int
  code : Int
deriving DecidableEq

/-- The loop of `reflect_in` (source lines 40-61): `i` is the Go argument
index of the head of the remaining parameter list, the receiver having
index 0. -/
def reflect_in_go (r : in_idx) (i : Int) : List GoType → Except String in_idx
  | [] => .ok r
  | t :: rest =>
    if r.ctx = -1 ∧ t = .context then
      reflect_in_go { r with ctx := i } (i + 1) rest
    else if r.http_req = -1 ∧ t = .httpRequest then
      reflect_in_go { r with http_req := i } (i + 1) rest
    else if r.http_res = -1 ∧ t = .httpResponseWriter then
      reflect_in_go { r with http_res := i } (i + 1) rest
    else if r.req = -1 then
      reflect_in_go { r with req := i } (i + 1) rest
    else
      .error "Too many arguments: Not sure how to populate argument"

/-- `reflect_in` (source lines 33-63): classify the parameter types
`f.In(1) .. f.In(NumIn-1)` (the receiver `f.In(0)` is skipped). -/
def reflect_in (params : List GoType) : Except String in_idx :=
  reflect_in_go ⟨-1, -1, -1, -1⟩ 1 params

/-- The loop of `reflect_out` (source lines 70-86). -/
def reflect_out_go (r : out_idx) (i : Int) : List GoType → Except String out_idx
  | [] => .ok r
  | t :: rest =>
    if r.err = -1 ∧ t = .goError then
      reflect_out_go { r with err := i } (i + 1) rest
    else if r.code = -1 ∧ t = .goInt then
      reflect_out_go { r with code := i } (i + 1) rest
    else if r.res = -1 then
      reflect_out_go { r with res := i } (i + 1) rest
    else
      .error "Too many return values: Not sure what to do with value"

/-- `reflect_out` (source lines 64-88): classify the return types
`f.Out(0) .. f.Out(NumOut-1)`. -/
def reflect_out (outs : List GoType) : Except String out_idx :=
  reflect_out_go ⟨-1, -1, -1⟩ 0 outs

/-- The three irrecoverable registration failures of `NewHandler`
(source lines 94-109): each is a `panic` in the source. -/
inductive RegError where
  | methodNotFound
  | tooManyArguments
  | tooManyReturnValues
deriving DecidableEq

/-- The role assignment cached by the returned closure. -/
structure Plan where
  inx : in_idx
  outx : out_idx
deriving DecidableEq

/-- A method signature as seen through `reflect`: `params` are the types
`In(1) .. In(NumIn-1)` (receiver excluded), `outs` are the return types. -/
structure MethodSig where
  params : List GoType
  outs : List GoType
deriving DecidableEq

/-- The registration-time part of variant 1's `NewHandler` (source lines
90-109): `methodExists` is the `ok` of `MethodByName`; each `panic` is
modelled as the corresponding `RegError`. -/
def NewHandlerReg (methodExists : Bool) (sig : MethodSig) : Except RegError Plan :=
  if !methodExists then .error .methodNotFound
  else
    match reflect_in sig.params with
    | .error _ => .error .tooManyArguments
    | .ok inx =>
      match reflect_out sig.outs with
      | .error _ => .error .tooManyReturnValues
      | .ok outx => .ok ⟨inx, outx⟩

/-- A Go value as far as the handler manipulates one: results returned by
the method, and the values the binder places into argument slots.
`vNew t` is `reflect.New(t)` (of type `*t`) after the JSON decoder filled
it; `vNewElem t` is its `.Elem()` (of type `t`); the three handles are
`r.Context()`, `r` (of type `*http.Request`) and `w`. -/
inductive GoValue where
  | vInt (n : Int)
  | vStr (s : String)
  | vBool (b : Bool)
  | vErr (msg : Option String)
  | vNil
  | vUnencodable
  | vCtxHandle
  | vReqHandle
  | vRespHandle
  | vNew (t : GoType)
  | vNewElem (t : GoType)
deriving DecidableEq

/-- Whether a value may be placed in an argument slot of the given declared
type without `reflect.Value.Call` panicking: the context handle implements
`context.Context`, `w` implements `http.ResponseWriter`, `r` has the exact
type `*http.Request`, and the decode targets have types `*t` and `t`. -/
def assignable : GoValue → GoType → Bool
  | .vCtxHandle, .context => true
  | .vReqHandle, .ptr .httpRequest => true
  | .vRespHandle, .httpResponseWriter => true
  | .vNew t, u => decide (GoType.ptr t = u)
  | .vNewElem t, u => decide (t = u)
  | _, _ => false

/-- The per-request input the handler consumes: `decodeBody t` is the
outcome of `json.NewDecoder(r.Body).Decode` into a freshly allocated value
of type `*t` (source lines 127-133). -/
structure Request where
  decodeBody : GoType → Except String Unit

/-- A request whose body decodes successfully into anything. -/
def req0 : Request := ⟨fun _ => Except.ok ()⟩

/-- A request whose body fails to decode as JSON, whatever the target type. -/
def reqBad : Request := ⟨fun _ => Except.error "invalid character"⟩

/-- One write the handler closure performs on the `http.ResponseWriter`. -/
inductive WriteEffect where
  | header (name value : String)
  | status (code : Int)
  | body (s : String)
deriving DecidableEq

/-- The writes performed by the standard library's `http.Error(w, msg, code)`
(used at source lines 136 and 187): plain-text content type, nosniff
header, status line, then the message followed by a newline. -/
def httpError (msg : String) (code : Int) : List WriteEffect :=
  [.header "Content-Type" "text/plain; charset=utf-8",
   .header "X-Content-Type-Options" "nosniff",
   .status code,
   .body (msg ++ "\n")]

/-- What one handler execution did: whether the underlying method was
invoked, the response writes performed by the core itself (writes the
method performs through a raw `http.ResponseWriter` argument are the
method's, not the core's), and the log lines emitted. -/
structure HandlerOutcome where
  invoked : Bool
  writes : List WriteEffect
  logs : List String
deriving DecidableEq

/-- Result of one handler execution; `fault` is a `reflect` panic escaping
the closure (wrong argument type or zero `reflect.Value` argument in
`method_fv.Call`). -/
inductive HandlerResult where
  | done (out : HandlerOutcome)
  | fault
deriving DecidableEq

/-- The JSON codec's encoder, a black box to the adapter: ordinary data
values encode, channels (`vUnencodable`) and live handles do not. -/
def jsonEncode : GoValue → Except String String
  | .vInt n => .ok (toString n)
  | .vStr s => .ok ("\"" ++ s ++ "\"")
  | .vBool b => .ok (cond b "true" "false")
  | .vNil => .ok "null"
  | .vNew _ => .ok "null"
  | .vNewElem _ => .ok "null"
  | .vUnencodable => .error "json: unsupported type: autojson.Unencodable"
  | .vErr _ => .error "json: unsupported type"
  | .vCtxHandle => .error "json: unsupported type"
  | .vReqHandle => .error "json: unsupported type"
  | .vRespHandle => .error "json: unsupported type"

/-- The type assertion `res_vals[i].Interface().(int)` with the `ok` flag
discarded (source line 156): a non-int value yields the zero value 0. -/
def asIntD : GoValue → Int
  | .vInt n => n
  | _ => 0

/-- The type assertion `res_vals[i].Interface().(error)` with the `ok` flag
discarded (source line 159): a non-error value yields nil. -/
def asErrD : GoValue → Option String
  | .vErr m => m
  | _ => none

/-- `res_vals[i]` for a role index. -/
def roleVal (vals : List GoValue) (i : Int) : GoValue :=
  (vals[i.toNat]?).getD .vNil

/-- `v_out_code` (source lines 155-157): 0 when there is no int-role
return. -/
def extractedCode (outx : out_idx) (vals : List GoValue) : Int :=
  if outx.code ≠ -1 then asIntD (roleVal vals outx.code) else 0

/-- `v_out_err` (source lines 158-160). -/
def extractedErr (outx : out_idx) (vals : List GoValue) : Option String :=
  if outx.err ≠ -1 then asErrD (roleVal vals outx.err) else none

/-- `v_out_res` (source lines 161-163). -/
def extractedRes (outx : out_idx) (vals : List GoValue) : GoValue :=
  if outx.res ≠ -1 then roleVal vals outx.res else .vNil

/-- Resolution and writing, source lines 149-210: the sentinel -1 check,
the 500/200/204 defaulting, the `http.Error` path for a non-nil error, the
header-only path when there is no result-role return, and the
set-content-type / write-status / encode-to-the-writer path, where an
encoder failure after the status line is only logged. -/
def resolve (outx : out_idx) (vals : List GoValue) : HandlerResult :=
  let code0 := extractedCode outx vals
  let errv := extractedErr outx vals
  if code0 = -1 then .done ⟨true, [], []⟩
  else
    let code1 :=
      if code0 = 0 then
        match errv with
        | none => if outx.res = -1 then 204 else 200
        | some _ => 500
      else code0
    match errv with
    | some msg => .done ⟨true, httpError msg code1, []⟩
    | none =>
      if outx.res = -1 then .done ⟨true, [.status code1], []⟩
      else
        match jsonEncode (extractedRes outx vals) with
        | .ok s =>
          .done ⟨true, [.header "Content-Type" "application/json",
                        .status code1, .body (s ++ "\n")], []⟩
        | .error e =>
          .done ⟨true, [.header "Content-Type" "application/json",
                        .status code1],
                 ["JSON encode error: " ++ e ++ ": Cannot send response back to client"]⟩

/-- `method_ft.In(in.req)` (source line 127). -/
def bodyParamType (sig : MethodSig) (inx : in_idx) : Option GoType :=
  sig.params[(inx.req - 1).toNat]?

/-- The body-decoding step (source lines 126-138): nothing is decoded when
there is no body-role parameter; an out-of-range body index never decodes
(in Go `method_ft.In` would panic first, which `handle` reports as a
`fault` through the argument check). -/
def bodyDecode (sig : MethodSig) (inx : in_idx) (req : Request) : Except String Unit :=
  if inx.req = -1 then .ok ()
  else
    match bodyParamType sig inx with
    | none => .ok ()
    | some t => req.decodeBody t

/-- The value placed in argument slot `i` (Go index, receiver = 0) by the
assignments at source lines 117-145.  The source performs four sequential
writes (ctx, then http_req, then http_res, then req), so on a pathological
plan where indices collide the later write wins; the checks here are in
the reverse order to reproduce that. -/
def argAt (sig : MethodSig) (inx : in_idx) (i : Int) : Option GoValue :=
  if inx.req = i then
    match bodyParamType sig inx with
    | some t => some (if t.isPtr then GoValue.vNew t else GoValue.vNewElem t)
    | none => none
  else if inx.http_res = i then some .vRespHandle
  else if inx.http_req = i then some .vReqHandle
  else if inx.ctx = i then some .vCtxHandle
  else none

/-- Argument slot `k+1` is filled and its value is assignable to the
declared parameter type. -/
def argOkAt (sig : MethodSig) (inx : in_idx) (k : Nat) : Bool :=
  match sig.params[k]?, argAt sig inx (k + 1 : Int) with
  | some t, some v => assignable v t
  | _, _ => false

/-- `method_fv.Call(args)` succeeds: every argument slot after the receiver
holds a value of an acceptable type.  When this is false the call panics
(zero `reflect.Value` or wrong argument type). -/
def argsOk (sig : MethodSig) (inx : in_idx) : Bool :=
  (List.range sig.params.length).all (argOkAt sig inx)

/-- The request-time closure of variant 1's `NewHandler` (source lines
111-210): decode the body if a body role exists, answering 400 on a decode
failure before the method is invoked; then perform the reflective call
(`fault` when it panics) and resolve/write the response. -/
def handle (sig : MethodSig) (inx : in_idx) (outx : out_idx)
    (req : Request) (results : List GoValue) : HandlerResult :=
  match bodyDecode sig inx req with
  | .error e => .done ⟨false, httpError e 400, []⟩
  | .ok _ =>
    if argsOk sig inx then resolve outx results else .fault

/-- The status lines among a list of writes. -/
def statuses : List WriteEffect → List Int
  | [] => []
  | .status c :: rest => c :: statuses rest
  | _ :: rest => statuses rest

/-- The status lines written by a handler execution. -/
def resultStatuses : HandlerResult → List Int
  | .done o => statuses o.writes
  | .fault => []

/-- Registration plus one request, as one outcome. -/
inductive RunResult where
  | regFailure (e : RegError)
  | response (r : HandlerResult)
deriving DecidableEq

/-- Variant 1 end to end: register, then serve one request in which the
method (when invoked) returns `results`. -/
def run_v1 (methodExists : Bool) (sig : MethodSig) (req : Request)
    (results : List GoValue) : RunResult :=
  match NewHandlerReg methodExists sig with
  | .error e => .regFailure e
  | .ok plan => .response (handle sig plan.inx plan.outx req results)

/-! ### Variant 2 (source lines 212-415)

Variant 2 renames the index structures and inlines the type constants.  In
its classifier `reflectArgs` (lines 243-264) the condition on the
`http.ResponseWriter` interface type stores into the `httpReq` field and
the condition on the by-value `http.Request` struct type stores into the
`httpRes` field, while its closure (lines 324-329) still binds
`args[in.httpReq] = reflect.ValueOf(r)` and
`args[in.httpRes] = reflect.ValueOf(w)`. -/

/-- Argument-role indices of variant 2 (source lines 223-228). -/
structure argsIndex where
  ctx : Int
  req : Int
  httpReq : Int
  httpRes : Int
deriving DecidableEq

/-- The loop of `reflectArgs` (source lines 243-264).  Note the swap
relative to `reflect_in_go`: `httpReq` is assigned on the
`http.ResponseWriter` type and `httpRes` on the `http.Request` type. -/
def reflectArgs_go (r : argsIndex) (i : Int) : List GoType → Except String argsIndex
  | [] => .ok r
  | t :: rest =>
    if r.ctx = -1 ∧ t = .context then
      reflectArgs_go { r with ctx := i } (i + 1) rest
    else if r.httpReq = -1 ∧ t = .httpResponseWriter then
      reflectArgs_go { r with httpReq := i } (i + 1) rest
    else if r.httpRes = -1 ∧ t = .httpRequest then
      reflectArgs_go { r with httpRes := i } (i + 1) rest
    else if r.req = -1 then
      reflectArgs_go { r with req := i } (i + 1) rest
    else
      .error "Too many arguments: Not sure how to populate argument"

/-- `reflectArgs` (source lines 236-266). -/
def reflectArgs (params : List GoType) : Except String argsIndex :=
  reflectArgs_go ⟨-1, -1, -1, -1⟩ 1 params

/-- Return-role indices of variant 2 (source lines 230-234). -/
structure returnsIndex where
  res : Int
  err : Int
  code : Int
deriving DecidableEq

/-- The loop of `reflectReturns` (source lines 273-289); same logic as
`reflect_out_go`. -/
def reflectReturns_go (r : returnsIndex) (i : Int) :
    List GoType → Except String returnsIndex
  | [] => .ok r
  | t :: rest =>
    if r.err = -1 ∧ t = .goError then
      reflectReturns_go { r with err := i } (i + 1) rest
    else if r.code = -1 ∧ t = .goInt then
      reflectReturns_go { r with code := i } (i + 1) rest
    else if r.res = -1 then
      reflectReturns_go { r with res := i } (i + 1) rest
    else
      .error "Too many return values: Not sure what to do with value"

/-- `reflectReturns` (source lines 267-291). -/
def reflectReturns (outs : List GoType) : Except String returnsIndex :=
  reflectReturns_go ⟨-1, -1, -1⟩ 0 outs

/-- Variant 2's plan. -/
structure Plan2 where
  inx : argsIndex
  outx : returnsIndex
deriving DecidableEq

/-- Registration-time part of variant 2's `NewHandler` (source lines
294-313). -/
def NewHandlerReg_v2 (methodExists : Bool) (sig : MethodSig) : Except RegError Plan2 :=
  if !methodExists then .error .methodNotFound
  else
    match reflectArgs sig.params with
    | .error _ => .error .tooManyArguments
    | .ok inx =>
      match reflectReturns sig.outs with
      | .error _ => .error .tooManyReturnValues
      | .ok outx => .ok ⟨inx, outx⟩

/-- `methodType.In(in.req)` of variant 2 (source line 331). -/
def bodyParamType_v2 (sig : MethodSig) (inx : argsIndex) : Option GoType :=
  sig.params[(inx.req - 1).toNat]?

/-- The body-decoding step of variant 2 (source lines 330-342). -/
def bodyDecode_v2 (sig : MethodSig) (inx : argsIndex) (req : Request) :
    Except String Unit :=
  if inx.req = -1 then .ok ()
  else
    match bodyParamType_v2 sig inx with
    | none => .ok ()
    | some t => req.decodeBody t

/-- The value placed in argument slot `i` by variant 2's assignments
(source lines 321-349): `args[in.httpReq]` receives `r` and
`args[in.httpRes]` receives `w`, exactly as written there. -/
def argAt_v2 (sig : MethodSig) (inx : argsIndex) (i : Int) : Option GoValue :=
  if inx.req = i then
    match bodyParamType_v2 sig inx with
    | some t => some (if t.isPtr then GoValue.vNew t else GoValue.vNewElem t)
    | none => none
  else if inx.httpRes = i then some .vRespHandle
  else if inx.httpReq = i then some .vReqHandle
  else if inx.ctx = i then some .vCtxHandle
  else none

/-- Slot check for variant 2. -/
def argOkAt_v2 (sig : MethodSig) (inx : argsIndex) (k : Nat) : Bool :=
  match sig.params[k]?, argAt_v2 sig inx (k + 1 : Int) with
  | some t, some v => assignable v t
  | _, _ => false

/-- `methodFunc.Call(args)` succeeds in variant 2. -/
def argsOk_v2 (sig : MethodSig) (inx : argsIndex) : Bool :=
  (List.range sig.params.length).all (argOkAt_v2 sig inx)

/-- The request-time closure of variant 2's `NewHandler` (source lines
315-414); apart from the index-structure field names its text is that of
variant 1's closure, so resolution is the shared `resolve`. -/
def handle_v2 (sig : MethodSig) (inx : argsIndex) (outx : returnsIndex)
    (req : Request) (results : List GoValue) : HandlerResult :=
  match bodyDecode_v2 sig inx req with
  | .error e => .done ⟨false, httpError e 400, []⟩
  | .ok _ =>
    if argsOk_v2 sig inx then resolve ⟨outx.res, outx.err, outx.code⟩ results
    else .fault

/-- Variant 2 end to end. -/
def run_v2 (methodExists : Bool) (sig : MethodSig) (req : Request)
    (results : List GoValue) : RunResult :=
  match NewHandlerReg_v2 methodExists sig with
  | .error e => .regFailure e
  | .ok plan => .response (handle_v2 sig plan.inx plan.outx req results)

/-! ### Variant 3 (source lines 416-600)

Variant 3 repeats variant 1 with the two classification loops inlined into
`NewHandler` (lines 456-497), panicking directly instead of returning an
error; its closure (lines 499-600) is textually identical to variant 1's
closure (lines 111-210). -/

/-- The inlined parameter loop of variant 3 (source lines 456-478). -/
def reflect_in3_go (r : in_idx) (i : Int) : List GoType → Except String in_idx
  | [] => .ok r
  | t :: rest =>
    if r.ctx = -1 ∧ t = .context then
      reflect_in3_go { r with ctx := i } (i + 1) rest
    else if r.http_req = -1 ∧ t = .httpRequest then
      reflect_in3_go { r with http_req := i } (i + 1) rest
    else if r.http_res = -1 ∧ t = .httpResponseWriter then
      reflect_in3_go { r with http_res := i } (i + 1) rest
    else if r.req = -1 then
      reflect_in3_go { r with req := i } (i + 1) rest
    else
      .error "too many arguments: Not sure how to populate argument"

/-- The inlined return loop of variant 3 (source lines 480-497). -/
def reflect_out3_go (r : out_idx) (i : Int) : List GoType → Except String out_idx
  | [] => .ok r
  | t :: rest =>
    if r.err = -1 ∧ t = .goError then
      reflect_out3_go { r with err := i } (i + 1) rest
    else if r.code = -1 ∧ t = .goInt then
      reflect_out3_go { r with code := i } (i + 1) rest
    else if r.res = -1 then
      reflect_out3_go { r with res := i } (i + 1) rest
    else
      .error "too many return values: Not sure what to do with value"

/-- Registration-time part of variant 3's `NewHandler` (source lines
435-497). -/
def NewHandlerReg_v3 (methodExists : Bool) (sig : MethodSig) : Except RegError Plan :=
  if !methodExists then .error .methodNotFound
  else
    match reflect_in3_go ⟨-1, -1, -1, -1⟩ 1 sig.params with
    | .error _ => .error .tooManyArguments
    | .ok inx =>
      match reflect_out3_go ⟨-1, -1, -1⟩ 0 sig.outs with
      | .error _ => .error .tooManyReturnValues
      | .ok outx => .ok ⟨inx, outx⟩

/-- The request-time closure of variant 3's `NewHandler` (source lines
499-600), textually identical to variant 1's closure, hence built from the
same slot-binding and resolution functions. -/
def handle_v3 (sig : MethodSig) (inx : in_idx) (outx : out_idx)
    (req : Request) (results : List GoValue) : HandlerResult :=
  match bodyDecode sig inx req with
  | .error e => .done ⟨false, httpError e 400, []⟩
  | .ok _ =>
    if argsOk sig inx then resolve outx results else .fault

/-- Variant 3 end to end. -/
def run_v3 (methodExists : Bool) (sig : MethodSig) (req : Request)
    (results : List GoValue) : RunResult :=
  match NewHandlerReg_v3 methodExists sig with
  | .error e => .regFailure e
  | .ok plan => .response (handle_v3 sig plan.inx plan.outx req results)

/-! ### Role-count characterizations used to state claim C7

A parameter "matches a special role" in the claim's sense when the greedy
first-match-wins pass assigns it one of the context / raw-request /
raw-response roles; since each of the three checks matches exactly one
type and each role is assigned at most once, that happens exactly for the
first parameter of each special type.  The counts below say how many
parameters (returns) are left over, purely in terms of how many of each
type occur. -/

/-- The parameter types carrying a special role (source lines 43-54). -/
def specialIn : GoType → Bool
  | .context => true
  | .httpRequest => true
  | .httpResponseWriter => true
  | _ => false

/-- The return types carrying a special role (source lines 73-80). -/
def specialOut : GoType → Bool
  | .goError => true
  | .goInt => true
  | _ => false

/-- How many entries of the list have exactly this type. -/
def countType (ps : List GoType) (t : GoType) : Nat :=
  (ps.filter (fun u => u = t)).length

/-- The occurrences of `t` beyond the first one (which takes `t`'s role). -/
def extraOf (ps : List GoType) (t : GoType) : Nat :=
  countType ps t - min (countType ps t) 1

/-- How many parameters match no special role: those of a non-special type,
plus duplicate occurrences of each special type. -/
def unmatchedIn (ps : List GoType) : Nat :=
  (ps.filter (fun t => !specialIn t)).length
    + extraOf ps .context + extraOf ps .httpRequest + extraOf ps .httpResponseWriter

/-- How many return values match neither the error type nor int. -/
def unmatchedOut (outs : List GoType) : Nat :=
  (outs.filter (fun t => !specialOut t)).length
    + extraOf outs .goError + extraOf outs .goInt

/-- `unmatchedIn` generalized over which roles are already taken: a taken
role makes every parameter of its type leftover. -/
def unmatchedInF (c q w : Bool) (ps : List GoType) : Nat :=
  (ps.filter (fun t => !specialIn t)).length
    + (if c then countType ps .context else extraOf ps .context)
    + (if q then countType ps .httpRequest else extraOf ps .httpRequest)
    + (if w then countType ps .httpResponseWriter else extraOf ps .httpResponseWriter)

/-- `unmatchedOut` generalized over which roles are already taken. -/
def unmatchedOutF (e c : Bool) (outs : List GoType) : Nat :=
  (outs.filter (fun t => !specialOut t)).length
    + (if e then countType outs .goError else extraOf outs .goError)
    + (if c then countType outs .goInt else extraOf outs .goInt)

/-! ### Helper lemmas -/

theorem countType_cons (x t : GoType) (ps : List GoType) :
    countType (x :: ps) t = (if x = t then 1 else 0) + countType ps t := by
  by_cases h : x = t <;> simp [countType, List.filter_cons, h, Nat.add_comm]

theorem unmatchedInF_nil (c q w : Bool) : unmatchedInF c q w [] = 0 := by
  cases c <;> cases q <;> cases w <;> simp [unmatchedInF, countType, extraOf]

theorem unmatchedOutF_nil (e c : Bool) : unmatchedOutF e c [] = 0 := by
  cases e <;> cases c <;> simp [unmatchedOutF, countType, extraOf]

theorem unmatchedInF_eq (ps : List GoType) :
    unmatchedInF false false false ps = unmatchedIn ps := by
  simp [unmatchedInF, unmatchedIn]

theorem unmatchedOutF_eq (outs : List GoType) :
    unmatchedOutF false false outs = unmatchedOut outs := by
  simp [unmatchedOutF, unmatchedOut]

theorem unmatchedInF_take_ctx (q w : Bool) (rest : List GoType) :
    unmatchedInF false q w (GoType.context :: rest) = unmatchedInF true q w rest := by
  cases q <;> cases w <;>
    simp [unmatchedInF, countType_cons, extraOf, List.filter_cons, specialIn]

theorem unmatchedInF_take_req (c w : Bool) (rest : List GoType) :
    unmatchedInF c false w (GoType.httpRequest :: rest) = unmatchedInF c true w rest := by
  cases c <;> cases w <;>
    simp [unmatchedInF, countType_cons, extraOf, List.filter_cons, specialIn]

theorem unmatchedInF_take_res (c q : Bool) (rest : List GoType) :
    unmatchedInF c q false (GoType.httpResponseWriter :: rest) =
      unmatchedInF c q true rest := by
  cases c <;> cases q <;>
    simp [unmatchedInF, countType_cons, extraOf, List.filter_cons, specialIn]

theorem specialIn_false_ne (t : GoType) (h : specialIn t = false) :
    t ≠ GoType.context ∧ t ≠ GoType.httpRequest ∧ t ≠ GoType.httpResponseWriter := by
  refine ⟨?_, ?_, ?_⟩ <;> rintro rfl <;> simp [specialIn] at h

theorem unmatchedInF_skip_ctx (q w : Bool) (rest : List GoType) :
    unmatchedInF true q w (GoType.context :: rest) = 1 + unmatchedInF true q w rest := by
  cases q <;> cases w <;>
    simp [unmatchedInF, countType_cons, extraOf, List.filter_cons, specialIn] <;> omega

theorem unmatchedInF_skip_req (c w : Bool) (rest : List GoType) :
    unmatchedInF c true w (GoType.httpRequest :: rest) =
      1 + unmatchedInF c true w rest := by
  cases c <;> cases w <;>
    simp [unmatchedInF, countType_cons, extraOf, List.filter_cons, specialIn] <;> omega

theorem unmatchedInF_skip_res (c q : Bool) (rest : List GoType) :
    unmatchedInF c q true (GoType.httpResponseWriter :: rest) =
      1 + unmatchedInF c q true rest := by
  cases c <;> cases q <;>
    simp [unmatchedInF, countType_cons, extraOf, List.filter_cons, specialIn] <;> omega

theorem unmatchedInF_skip_nonspecial (c q w : Bool) (t : GoType) (rest : List GoType)
    (h : specialIn t = false) :
    unmatchedInF c q w (t :: rest) = 1 + unmatchedInF c q w rest := by
  obtain ⟨h1, h2, h3⟩ := specialIn_false_ne t h
  cases c <;> cases q <;> cases w <;>
    simp [unmatchedInF, countType_cons, extraOf, List.filter_cons, h, h1, h2, h3] <;> omega

theorem unmatchedOutF_take_err (c : Bool) (rest : List GoType) :
    unmatchedOutF false c (GoType.goError :: rest) = unmatchedOutF true c rest := by
  cases c <;>
    simp [unmatchedOutF, countType_cons, extraOf, List.filter_cons, specialOut]

theorem unmatchedOutF_take_code (e : Bool) (rest : List GoType) :
    unmatchedOutF e false (GoType.goInt :: rest) = unmatchedOutF e true rest := by
  cases e <;>
    simp [unmatchedOutF, countType_cons, extraOf, List.filter_cons, specialOut]

theorem specialOut_false_ne (t : GoType) (h : specialOut t = false) :
    t ≠ GoType.goError ∧ t ≠ GoType.goInt := by
  refine ⟨?_, ?_⟩ <;> rintro rfl <;> simp [specialOut] at h

theorem unmatchedOutF_skip_err (c : Bool) (rest : List GoType) :
    unmatchedOutF true c (GoType.goError :: rest) = 1 + unmatchedOutF true c rest := by
  cases c <;>
    simp [unmatchedOutF, countType_cons, extraOf, List.filter_cons, specialOut] <;> omega

theorem unmatchedOutF_skip_code (e : Bool) (rest : List GoType) :
    unmatchedOutF e true (GoType.goInt :: rest) = 1 + unmatchedOutF e true rest := by
  cases e <;>
    simp [unmatchedOutF, countType_cons, extraOf, List.filter_cons, specialOut] <;> omega

theorem unmatchedOutF_skip_nonspecial (e c : Bool) (t : GoType) (rest : List GoType)
    (h : specialOut t = false) :
    unmatchedOutF e c (t :: rest) = 1 + unmatchedOutF e c rest := by
  obtain ⟨h1, h2⟩ := specialOut_false_ne t h
  cases e <;> cases c <;>
    simp [unmatchedOutF, countType_cons, extraOf, List.filter_cons, h, h1, h2] <;> omega

theorem reflect_in_go_ok_iff (ps : List GoType) :
    ∀ (r : in_idx) (i : Int), 0 < i →
    ((reflect_in_go r i ps).isOk = true ↔
      unmatchedInF (!decide (r.ctx = -1)) (!decide (r.http_req = -1))
          (!decide (r.http_res = -1)) ps
        ≤ (if r.req = -1 then 1 else 0)) := by
  induction ps with
  | nil =>
    intro r i _
    constructor
    · intro _
      rw [unmatchedInF_nil]
      split <;> omega
    · intro _
      rfl
  | cons t rest ih =>
    intro r i hi
    have hInat : ¬((i : Int) = -1) := by omega
    by_cases h1 : r.ctx = -1 ∧ t = GoType.context
    · obtain ⟨h1a, rfl⟩ := h1
      rw [show reflect_in_go r i (GoType.context :: rest) =
          reflect_in_go { r with ctx := i } (i + 1) rest from by
        simp [reflect_in_go, h1a]]
      rw [ih _ _ (by omega)]
      simp [h1a, hInat, unmatchedInF_take_ctx]
    · by_cases h2 : r.http_req = -1 ∧ t = GoType.httpRequest
      · obtain ⟨h2a, rfl⟩ := h2
        have h1b : ¬(r.ctx = -1) ∨ True := by tauto
        rw [show reflect_in_go r i (GoType.httpRequest :: rest) =
            reflect_in_go { r with http_req := i } (i + 1) rest from by
          simp [reflect_in_go, h1, h2a]]
        rw [ih _ _ (by omega)]
        simp [h2a, hInat, unmatchedInF_take_req]
      · by_cases h3 : r.http_res = -1 ∧ t = GoType.httpResponseWriter
        · obtain ⟨h3a, rfl⟩ := h3
          rw [show reflect_in_go r i (GoType.httpResponseWriter :: rest) =
              reflect_in_go { r with http_res := i } (i + 1) rest from by
            simp [reflect_in_go, h1, h2, h3a]]
          rw [ih _ _ (by omega)]
          simp [h3a, hInat, unmatchedInF_take_res]
        · have hskip : unmatchedInF (!decide (r.ctx = -1)) (!decide (r.http_req = -1))
              (!decide (r.http_res = -1)) (t :: rest)
              = 1 + unmatchedInF (!decide (r.ctx = -1)) (!decide (r.http_req = -1))
                  (!decide (r.http_res = -1)) rest := by
            by_cases hsp : specialIn t = false
            · exact unmatchedInF_skip_nonspecial _ _ _ _ _ hsp
            · cases t with
              | context =>
                have hx : ¬(r.ctx = -1) := fun h => h1 ⟨h, rfl⟩
                simp only [show (!decide (r.ctx = -1)) = true from by simp [hx]]
                exact unmatchedInF_skip_ctx _ _ _
              | httpRequest =>
                have hx : ¬(r.http_req = -1) := fun h => h2 ⟨h, rfl⟩
                simp only [show (!decide (r.http_req = -1)) = true from by simp [hx]]
                exact unmatchedInF_skip_req _ _ _
              | httpResponseWriter =>
                have hx : ¬(r.http_res = -1) := fun h => h3 ⟨h, rfl⟩
                simp only [show (!decide (r.http_res = -1)) = true from by simp [hx]]
                exact unmatchedInF_skip_res _ _ _
              | goError => simp [specialIn] at hsp
              | goInt => simp [specialIn] at hsp
              | ptr u => simp [specialIn] at hsp
              | named s => simp [specialIn] at hsp
          by_cases h4 : r.req = -1
          · rw [show reflect_in_go r i (t :: rest) =
                reflect_in_go { r with req := i } (i + 1) rest from by
              simp [reflect_in_go, h1, h2, h3, h4]]
            rw [ih _ _ (by omega), hskip]
            simp only [h4, if_pos]
            simp [hInat]
          · rw [show reflect_in_go r i (t :: rest) = .error
                "Too many arguments: Not sure how to populate argument" from by
              simp [reflect_in_go, h1, h2, h3, h4]]
            rw [hskip]
            simp [h4, Except.isOk, Except.toBool]

theorem reflect_out_go_ok_iff (outs : List GoType) :
    ∀ (r : out_idx) (i : Int), 0 ≤ i →
    ((reflect_out_go r i outs).isOk = true ↔
      unmatchedOutF (!decide (r.err = -1)) (!decide (r.code = -1)) outs
        ≤ (if r.res = -1 then 1 else 0)) := by
  induction outs with
  | nil =>
    intro r i _
    constructor
    · intro _
      rw [unmatchedOutF_nil]
      split <;> omega
    · intro _
      rfl
  | cons t rest ih =>
    intro r i hi
    have hInat : ¬((i : Int) = -1) := by omega
    by_cases h1 : r.err = -1 ∧ t = GoType.goError
    · obtain ⟨h1a, rfl⟩ := h1
      rw [show reflect_out_go r i (GoType.goError :: rest) =
          reflect_out_go { r with err := i } (i + 1) rest from by
        simp [reflect_out_go, h1a]]
      rw [ih _ _ (by omega)]
      simp [h1a, hInat, unmatchedOutF_take_err]
    · by_cases h2 : r.code = -1 ∧ t = GoType.goInt
      · obtain ⟨h2a, rfl⟩ := h2
        rw [show reflect_out_go r i (GoType.goInt :: rest) =
            reflect_out_go { r with code := i } (i + 1) rest from by
          simp [reflect_out_go, h1, h2a]]
        rw [ih _ _ (by omega)]
        simp [h2a, hInat, unmatchedOutF_take_code]
      · have hskip : unmatchedOutF (!decide (r.err = -1)) (!decide (r.code = -1)) (t :: rest)
            = 1 + unmatchedOutF (!decide (r.err = -1)) (!decide (r.code = -1)) rest := by
          by_cases hsp : specialOut t = false
          · exact unmatchedOutF_skip_nonspecial _ _ _ _ hsp
          · cases t with
            | goError =>
              have hx : ¬(r.err = -1) := fun h => h1 ⟨h, rfl⟩
              simp only [show (!decide (r.err = -1)) = true from by simp [hx]]
              exact unmatchedOutF_skip_err _ _
            | goInt =>
              have hx : ¬(r.code = -1) := fun h => h2 ⟨h, rfl⟩
              simp only [show (!decide (r.code = -1)) = true from by simp [hx]]
              exact unmatchedOutF_skip_code _ _
            | context => simp [specialOut] at hsp
            | httpRequest => simp [specialOut] at hsp
            | httpResponseWriter => simp [specialOut] at hsp
            | ptr u => simp [specialOut] at hsp
            | named s => simp [specialOut] at hsp
        by_cases h3 : r.res = -1
        · rw [show reflect_out_go r i (t :: rest) =
              reflect_out_go { r with res := i } (i + 1) rest from by
            simp [reflect_out_go, h1, h2, h3]]
          rw [ih _ _ (by omega), hskip]
          simp only [h3, if_pos]
          simp [hInat]
        · rw [show reflect_out_go r i (t :: rest) = .error
              "Too many return values: Not sure what to do with value" from by
            simp [reflect_out_go, h1, h2, h3]]
          rw [hskip]
          simp [h3, Except.isOk, Except.toBool]

theorem reflect_in_ok_iff (ps : List GoType) :
    (reflect_in ps).isOk = true ↔ unmatchedIn ps ≤ 1 := by
  rw [reflect_in, reflect_in_go_ok_iff ps ⟨-1, -1, -1, -1⟩ 1 (by omega)]
  simp [unmatchedInF_eq]

theorem reflect_out_ok_iff (outs : List GoType) :
    (reflect_out outs).isOk = true ↔ unmatchedOut outs ≤ 1 := by
  rw [reflect_out, reflect_out_go_ok_iff outs ⟨-1, -1, -1⟩ 0 (by omega)]
  simp [unmatchedOutF_eq]

/-- Once the body-role or raw-request-role index is set it never changes,
and any index set during the rest of the loop is at least the current
position. -/
theorem reflect_in_go_pres (ps : List GoType) :
    ∀ (r : in_idx) (i : Int) (inx : in_idx),
    reflect_in_go r i ps = .ok inx →
    (r.req ≠ -1 → inx.req = r.req) ∧
    (inx.http_req = r.http_req ∨ i ≤ inx.http_req) := by
  induction ps with
  | nil =>
    intro r i inx h
    simp only [reflect_in_go] at h
    cases h
    exact ⟨fun _ => rfl, Or.inl rfl⟩
  | cons t rest ih =>
    intro r i inx h
    simp only [reflect_in_go] at h
    split at h
    · obtain ⟨hp, hq⟩ := ih _ _ _ h
      refine ⟨hp, ?_⟩
      rcases hq with hq | hq
      · exact Or.inl hq
      · exact Or.inr (by omega)
    · split at h
      · obtain ⟨hp, hq⟩ := ih _ _ _ h
        refine ⟨hp, ?_⟩
        rcases hq with hq | hq
        · simp only at hq
          exact Or.inr (by omega)
        · exact Or.inr (by omega)
      · split at h
        · obtain ⟨hp, hq⟩ := ih _ _ _ h
          refine ⟨hp, ?_⟩
          rcases hq with hq | hq
          · exact Or.inl hq
          · exact Or.inr (by omega)
        · split at h
          · rename_i hreq
            obtain ⟨hp, hq⟩ := ih _ _ _ h
            refine ⟨fun hr => absurd hreq (by simp [hr]), ?_⟩
            rcases hq with hq | hq
            · exact Or.inl hq
            · exact Or.inr (by omega)
          · cases h

/-- A parameter of the pointer type `*http.Request` never receives the
raw-request role: when classification succeeds it receives the body role
(its Go argument index being `i + k`). -/
theorem reflect_in_go_ptr_body (ps : List GoType) :
    ∀ (r : in_idx) (i : Int) (inx : in_idx) (k : Nat),
    reflect_in_go r i ps = .ok inx →
    ps[k]? = some (.ptr .httpRequest) →
    r.http_req < i → 0 < i →
    r.req = -1 ∧ inx.req = i + k ∧ inx.http_req ≠ i + k := by
  induction ps with
  | nil =>
    intro r i inx k _ hk _ _
    simp at hk
  | cons t rest ih =>
    intro r i inx k h hk hlt hi
    cases k with
    | zero =>
      simp only [List.getElem?_cons_zero] at hk
      cases hk
      simp only [reflect_in_go] at h
      rw [if_neg (by rintro ⟨-, h⟩; cases h), if_neg (by rintro ⟨-, h⟩; cases h),
          if_neg (by rintro ⟨-, h⟩; cases h)] at h
      split at h
      · rename_i hreq
        obtain ⟨hp, hq⟩ := reflect_in_go_pres rest _ _ _ h
        refine ⟨hreq, ?_, ?_⟩
        · simpa using hp (by simp; omega)
        · rcases hq with hq | hq
          · simp only at hq
            omega
          · omega
      · cases h
    | succ k' =>
      simp only [List.getElem?_cons_succ] at hk
      simp only [reflect_in_go] at h
      split at h
      · obtain ⟨hreq0, hreq, hhr⟩ := ih _ _ _ _ h hk (by simp <;> omega) (by omega)
        refine ⟨by simpa using hreq0, by push_cast; omega, by push_cast at hhr ⊢; omega⟩
      · split at h
        · obtain ⟨hreq0, hreq, hhr⟩ := ih _ _ _ _ h hk (by simp <;> omega) (by omega)
          refine ⟨by simpa using hreq0, by push_cast; omega, by push_cast at hhr ⊢; omega⟩
        · split at h
          · obtain ⟨hreq0, hreq, hhr⟩ := ih _ _ _ _ h hk (by simp <;> omega) (by omega)
            refine ⟨by simpa using hreq0, by push_cast; omega, by push_cast at hhr ⊢; omega⟩
          · split at h
            · rename_i hreq
              obtain ⟨hreq0, -, -⟩ := ih _ _ _ _ h hk (by simp <;> omega) (by omega)
              simp at hreq0
              omega
            · cases h

/-- Variant 3's inlined parameter loop computes what variant 1's
`reflect_in_go` computes, up to the panic message. -/
theorem reflect_in3_go_eq (ps : List GoType) :
    ∀ (r : in_idx) (i : Int),
    reflect_in3_go r i ps =
      (reflect_in_go r i ps).mapError
        (fun _ => "too many arguments: Not sure how to populate argument") := by
  induction ps with
  | nil =>
    intro r i
    rfl
  | cons t rest ih =>
    intro r i
    simp only [reflect_in3_go, reflect_in_go]
    split
    · exact ih _ _
    · split
      · exact ih _ _
      · split
        · exact ih _ _
        · split
          · exact ih _ _
          · rfl

/-- Variant 3's inlined return loop computes what variant 1's
`reflect_out_go` computes, up to the panic message. -/
theorem reflect_out3_go_eq (outs : List GoType) :
    ∀ (r : out_idx) (i : Int),
    reflect_out3_go r i outs =
      (reflect_out_go r i outs).mapError
        (fun _ => "too many return values: Not sure what to do with value") := by
  induction outs with
  | nil =>
    intro r i
    rfl
  | cons t rest ih =>
    intro r i
    simp only [reflect_out3_go, reflect_out_go]
    split
    · exact ih _ _
    · split
      · exact ih _ _
      · split
        · exact ih _ _
        · rfl

/-- The swap between variant 1's and variant 2's parameter loops: running
them side by side from states related by exchanging the two raw-handle
fields, they succeed together, and on success the `httpReq` field of
variant 2 holds variant 1's `http_res` index and vice versa. -/
theorem reflectArgs_go_swap (ps : List GoType) :
    ∀ (r1 : in_idx) (r2 : argsIndex) (i : Int),
    r2.ctx = r1.ctx → r2.req = r1.req →
    r2.httpReq = r1.http_res → r2.httpRes = r1.http_req →
    ((reflectArgs_go r2 i ps).isOk = (reflect_in_go r1 i ps).isOk ∧
     ∀ (a : in_idx) (b : argsIndex),
       reflect_in_go r1 i ps = .ok a → reflectArgs_go r2 i ps = .ok b →
       b.ctx = a.ctx ∧ b.req = a.req ∧ b.httpReq = a.http_res ∧ b.httpRes = a.http_req) := by
  induction ps with
  | nil =>
    intro r1 r2 i hc hr hq hw
    refine ⟨rfl, ?_⟩
    intro a b ha hb
    cases ha
    cases hb
    exact ⟨hc, hr, hq, hw⟩
  | cons t rest ih =>
    intro r1 r2 i hc hr hq hw
    simp only [reflectArgs_go, reflect_in_go]
    by_cases h1 : r1.ctx = -1 ∧ t = GoType.context
    · rw [if_pos h1, if_pos (show r2.ctx = -1 ∧ t = GoType.context by rw [hc]; exact h1)]
      exact ih _ _ _ (by simp) (by simp [hr]) (by simp [hq]) (by simp [hw])
    · rw [if_neg h1,
          if_neg (show ¬(r2.ctx = -1 ∧ t = GoType.context) by rw [hc]; exact h1)]
      by_cases h2 : r1.http_req = -1 ∧ t = GoType.httpRequest
      · rw [if_pos h2,
            if_neg (show ¬(r2.httpReq = -1 ∧ t = GoType.httpResponseWriter) by
              rintro ⟨-, hRW⟩; rw [h2.2] at hRW; cases hRW),
            if_pos (show r2.httpRes = -1 ∧ t = GoType.httpRequest by rw [hw]; exact h2)]
        exact ih _ _ _ (by simp [hc]) (by simp [hr]) (by simp [hq]) (by simp)
      · rw [if_neg h2]
        by_cases h3 : r1.http_res = -1 ∧ t = GoType.httpResponseWriter
        · rw [if_pos h3,
              if_pos (show r2.httpReq = -1 ∧ t = GoType.httpResponseWriter by
                rw [hq]; exact h3)]
          exact ih _ _ _ (by simp [hc]) (by simp [hr]) (by simp) (by simp [hw])
        · rw [if_neg h3,
              if_neg (show ¬(r2.httpReq = -1 ∧ t = GoType.httpResponseWriter) by
                rw [hq]; exact h3),
              if_neg (show ¬(r2.httpRes = -1 ∧ t = GoType.httpRequest) by
                rw [hw]; exact h2)]
          by_cases h4 : r1.req = -1
          · rw [if_pos h4, if_pos (show r2.req = -1 by rw [hr]; exact h4)]
            exact ih _ _ _ (by simp [hc]) (by simp) (by simp [hq]) (by simp [hw])
          · rw [if_neg h4, if_neg (show ¬(r2.req = -1) by rw [hr]; exact h4)]
            refine ⟨rfl, ?_⟩
            intro a b ha hb
            cases ha

/-- Variant 2's return loop is variant 1's return loop modulo the renaming
of the index structure. -/
theorem reflectReturns_go_eq (outs : List GoType) :
    ∀ (r1 : out_idx) (r2 : returnsIndex) (i : Int),
    r2.res = r1.res → r2.err = r1.err → r2.code = r1.code →
    reflectReturns_go r2 i outs =
      (reflect_out_go r1 i outs).map (fun o => ⟨o.res, o.err, o.code⟩) := by
  induction outs with
  | nil =>
    intro r1 r2 i hres herr hcode
    obtain ⟨a, b, c⟩ := r2
    simp only at hres herr hcode
    subst hres herr hcode
    rfl
  | cons t rest ih =>
    intro r1 r2 i hres herr hcode
    simp only [reflectReturns_go, reflect_out_go]
    by_cases h1 : r1.err = -1 ∧ t = GoType.goError
    · rw [if_pos h1, if_pos (show r2.err = -1 ∧ t = GoType.goError by rw [herr]; exact h1)]
      exact ih _ _ _ (by simp [hres]) (by simp) (by simp [hcode])
    · rw [if_neg h1,
          if_neg (show ¬(r2.err = -1 ∧ t = GoType.goError) by rw [herr]; exact h1)]
      by_cases h2 : r1.code = -1 ∧ t = GoType.goInt
      · rw [if_pos h2,
            if_pos (show r2.code = -1 ∧ t = GoType.goInt by rw [hcode]; exact h2)]
        exact ih _ _ _ (by simp [hres]) (by simp [herr]) (by simp)
      · rw [if_neg h2,
            if_neg (show ¬(r2.code = -1 ∧ t = GoType.goInt) by rw [hcode]; exact h2)]
        by_cases h3 : r1.res = -1
        · rw [if_pos h3, if_pos (show r2.res = -1 by rw [hres]; exact h3)]
          exact ih _ _ _ (by simp) (by simp [herr]) (by simp [hcode])
        · rw [if_neg h3, if_neg (show ¬(r2.res = -1) by rw [hres]; exact h3)]
          rfl

/-! ### Claims -/

/-- Claim C1 (code bug).  The claim says a non-nil error with a non-sentinel
code yields the structured JSON body carrying the error message with
content-type application/json.  The source instead calls
`http.Error(w, v_out_err.Error(), v_out_code)` (line 187): at the claim's
own test input (method `E1` returning an error with message "hi1") the
handler writes the plain-text headers of `http.Error`, status 500 and the
body "hi1" followed by a newline — not the structured JSON object, and not
content-type application/json.  The result-role value is indeed
discarded. -/
theorem C1_error_body_plain_text :
    run_v1 true ⟨[], [.goError]⟩ req0 [.vErr (some "hi1")] =
      .response (.done ⟨true,
        [.header "Content-Type" "text/plain; charset=utf-8",
         .header "X-Content-Type-Options" "nosniff",
         .status 500,
         .body "hi1\n"], []⟩) := by
  decide

/-- Claim C2 (code bug).  The claim says the payload is serialized before
any status line is written, with a forced 500 on serialization failure.
The source instead sets the content type and writes the status line (lines
200-201) before encoding straight into the writer (line 203); at the
claim's own test input (method `Unencodable` returning a value the codec
rejects) the status 200 is already committed when encoding fails, and the
failure is only logged — no 500, no error body. -/
theorem C2_status_committed_before_encode :
    run_v1 true ⟨[], [.named "Unencodable"]⟩ req0 [.vUnencodable] =
      .response (.done ⟨true,
        [.header "Content-Type" "application/json", .status 200],
        ["JSON encode error: json: unsupported type: autojson.Unencodable: Cannot send response back to client"]⟩) := by
  decide

/-- Claim C3 (code bug).  The claim says an unset code resolves to 500 with
an error and 200 otherwise.  The source (lines 174-184) resolves to 204,
not 200, when no error is present and there is also no result-role return:
a method with no return values at all (the test's `Empty`) is answered
with status 204 and an empty body, where the claim and the repository's
own test expect 200. -/
theorem C3_no_result_defaults_to_204 :
    run_v1 true ⟨[], []⟩ req0 [] =
      .response (.done ⟨true, [.status 204], []⟩) := by
  decide

/-- Claim C4 (confirmed).  Whenever the extracted code-role value is the
sentinel -1 — whatever the error-role and result-role values are — the
handler performs no response writes and no logging at all: the sentinel
check (source lines 169-171) returns before anything is written. -/
theorem C4_sentinel_suppresses_writes (sig : MethodSig) (inx : in_idx)
    (outx : out_idx) (req : Request) (results : List GoValue)
    (hdec : bodyDecode sig inx req = .ok ())
    (hargs : argsOk sig inx = true)
    (hcode : extractedCode outx results = -1) :
    handle sig inx outx req results = .done ⟨true, [], []⟩ := by
  simp only [handle, hdec, hargs, if_true]
  simp [resolve, hcode]

/-- Witness for C4: a method returning the int -1 produces an invoked,
write-free, log-free outcome. -/
theorem C4_sentinel_suppresses_writes_witness :
    handle ⟨[], [.goInt]⟩ ⟨-1, -1, -1, -1⟩ ⟨-1, -1, 0⟩ req0 [.vInt (-1)] =
      .done ⟨true, [], []⟩ :=
  C4_sentinel_suppresses_writes _ _ _ _ _ (by decide) (by decide) (by decide)

/-- Claim C5 (confirmed).  When the plan has a body-role parameter and the
request body fails to decode, the handler answers with `http.Error` at
status 400 carrying the codec's message, and the underlying method is
never invoked (source lines 126-138 return before `Call`). -/
theorem C5_bad_json_short_circuits_400 (sig : MethodSig) (inx : in_idx)
    (outx : out_idx) (req : Request) (results : List GoValue) (e : String)
    (hbody : inx.req ≠ -1)
    (hdec : bodyDecode sig inx req = .error e) :
    handle sig inx outx req results = .done ⟨false, httpError e 400, []⟩ := by
  simp [handle, hdec]

/-- Witness for C5: a failing decode on a method with a body parameter. -/
theorem C5_bad_json_short_circuits_400_witness :
    handle ⟨[.named "string"], []⟩ ⟨-1, 1, -1, -1⟩ ⟨-1, -1, -1⟩ reqBad [] =
      .done ⟨false, httpError "invalid character" 400, []⟩ :=
  C5_bad_json_short_circuits_400 _ _ _ _ _ _ (by decide) (by decide)

/-- Claim C6 (confirmed).  When the extracted code-role value is neither 0
nor -1 it is the status code written, verbatim, on every path — including
when a non-nil error is present, overriding the 500 default (source lines
155-201): the handler writes exactly one status line and it carries that
integer. -/
theorem C6_code_role_verbatim_status (sig : MethodSig) (inx : in_idx)
    (outx : out_idx) (req : Request) (results : List GoValue) (c : Int)
    (hdec : bodyDecode sig inx req = .ok ())
    (hargs : argsOk sig inx = true)
    (hcode : extractedCode outx results = c)
    (h0 : c ≠ 0) (h1 : c ≠ -1) :
    resultStatuses (handle sig inx outx req results) = [c] := by
  simp only [handle, hdec, hargs, if_true]
  simp only [resolve, hcode]
  rw [if_neg h1]
  cases herr : extractedErr outx results with
  | some msg => simp [herr, h0, resultStatuses, statuses, httpError]
  | none =>
    by_cases hres : outx.res = -1
    · simp [herr, hres, h0, resultStatuses, statuses]
    · cases hje : jsonEncode (extractedRes outx results) with
      | ok s => simp [herr, hres, hje, h0, resultStatuses, statuses]
      | error e2 => simp [herr, hres, hje, h0, resultStatuses, statuses]

/-- Witness for C6: the test's `E2`, `(666, error "hi2")`, is answered at
status 666 despite the non-nil error. -/
theorem C6_code_role_verbatim_status_witness :
    resultStatuses (handle ⟨[], [.goInt, .goError]⟩ ⟨-1, -1, -1, -1⟩ ⟨-1, 1, 0⟩
      req0 [.vInt 666, .vErr (some "hi2")]) = [666] :=
  C6_code_role_verbatim_status _ _ _ _ _ _ (by decide) (by decide) (by decide)
    (by decide) (by decide)

/-- Claim C7 (confirmed).  Registration fails exactly when the method is
absent (MethodNotFound), when more than one parameter matches no special
role (TooManyArguments, checked first), or when more than one return value
matches neither the error type nor int (TooManyReturnValues); otherwise it
returns a plan, so no such failure can arise after registration.  "Matches
no special role" is counted independently of the loop: parameters of a
non-special type plus duplicate occurrences of each special type. -/
theorem C7_registration_failure_characterization (ex : Bool) (sig : MethodSig) :
    (NewHandlerReg ex sig = .error .methodNotFound ↔ ex = false) ∧
    (NewHandlerReg ex sig = .error .tooManyArguments ↔
       ex = true ∧ 2 ≤ unmatchedIn sig.params) ∧
    (NewHandlerReg ex sig = .error .tooManyReturnValues ↔
       ex = true ∧ unmatchedIn sig.params ≤ 1 ∧ 2 ≤ unmatchedOut sig.outs) ∧
    ((∃ p, NewHandlerReg ex sig = .ok p) ↔
       ex = true ∧ unmatchedIn sig.params ≤ 1 ∧ unmatchedOut sig.outs ≤ 1) := by
  cases ex with
  | false => simp [NewHandlerReg]
  | true =>
    have hin := reflect_in_ok_iff sig.params
    have hout := reflect_out_ok_iff sig.outs
    simp only [NewHandlerReg, Bool.not_true, Bool.false_eq_true, if_false]
    cases hrin : reflect_in sig.params with
    | error s =>
      rw [hrin] at hin
      simp only [Except.isOk, Except.toBool, Bool.false_eq_true, false_iff] at hin
      refine ⟨by simp, by simp; omega, by simp; omega, by simp; omega⟩
    | ok inx =>
      rw [hrin] at hin
      simp only [Except.isOk, Except.toBool, true_iff] at hin
      cases hrout : reflect_out sig.outs with
      | error s =>
        rw [hrout] at hout
        simp only [Except.isOk, Except.toBool, Bool.false_eq_true, false_iff] at hout
        refine ⟨by simp, by simp; omega, by simp; omega, by simp; omega⟩
      | ok outx =>
        rw [hrout] at hout
        simp only [Except.isOk, Except.toBool, true_iff] at hout
        refine ⟨by simp, by simp; omega, by simp; omega, by simp; exact ⟨hin, hout⟩⟩

/-- Witness for C7: two role-less parameters fail registration with
TooManyArguments. -/
theorem C7_registration_failure_characterization_witness :
    NewHandlerReg true ⟨[.named "a", .named "b"], []⟩ = .error .tooManyArguments :=
  (C7_registration_failure_characterization true ⟨[.named "a", .named "b"], []⟩).2.1.mpr
    ⟨rfl, by decide⟩

/-- Claim C8 (code bug).  The claim says the binder fills each raw-handle
parameter at its declared type so the reflective call cannot fault.  For a
method with one by-value `http.Request` parameter, classification succeeds
and assigns it the raw-request role, the binder then places
`reflect.ValueOf(r)` — a `*http.Request` value — into the slot declared as
`http.Request` (source line 121 against line 17), the value is not
assignable to the declared type, and the reflective call faults. -/
theorem C8_value_request_param_faults :
    NewHandlerReg true ⟨[.httpRequest], []⟩ =
      .ok ⟨⟨-1, -1, 1, -1⟩, ⟨-1, -1, -1⟩⟩ ∧
    argAt ⟨[.httpRequest], []⟩ ⟨-1, -1, 1, -1⟩ 1 = some .vReqHandle ∧
    assignable .vReqHandle .httpRequest = false ∧
    run_v1 true ⟨[.httpRequest], []⟩ req0 [] = .response .fault := by
  decide

/-- Claim C9 (confirmed).  A parameter of pointer type `*http.Request`
never receives the raw-request role — only the by-value `http.Request`
type matches it — so when classification succeeds that parameter carries
the body role, and the binder fills its slot with the freshly allocated
JSON-decode target, not with the incoming request handle. -/
theorem C9_ptr_request_gets_body_role (sig : MethodSig) (inx : in_idx) (k : Nat)
    (hcls : reflect_in sig.params = .ok inx)
    (hty : sig.params[k]? = some (.ptr .httpRequest)) :
    inx.http_req ≠ (1 + k : Int) ∧
    inx.req = (1 + k : Int) ∧
    bodyParamType sig inx = some (.ptr .httpRequest) ∧
    argAt sig inx (1 + k : Int) = some (.vNew (.ptr .httpRequest)) ∧
    GoValue.vNew (.ptr .httpRequest) ≠ .vReqHandle := by
  obtain ⟨-, hreq, hhr⟩ := reflect_in_go_ptr_body sig.params ⟨-1, -1, -1, -1⟩ 1 inx k
    hcls hty (by norm_num) (by norm_num)
  have hbp : bodyParamType sig inx = some (.ptr .httpRequest) := by
    rw [bodyParamType, hreq]
    have hk : ((1 + (k : Int)) - 1).toNat = k := by omega
    rw [hk, hty]
  refine ⟨hhr, hreq, hbp, ?_, by decide⟩
  rw [argAt, if_pos hreq, hbp]
  rfl

/-- Witness for C9: the single-parameter signature `(*http.Request)`. -/
theorem C9_ptr_request_gets_body_role_witness :
    (⟨-1, 1, -1, -1⟩ : in_idx).http_req ≠ (1 + (0 : Nat) : Int) ∧
    (⟨-1, 1, -1, -1⟩ : in_idx).req = (1 + (0 : Nat) : Int) ∧
    bodyParamType ⟨[.ptr .httpRequest], []⟩ ⟨-1, 1, -1, -1⟩ =
      some (.ptr .httpRequest) ∧
    argAt ⟨[.ptr .httpRequest], []⟩ ⟨-1, 1, -1, -1⟩ (1 + (0 : Nat) : Int) =
      some (.vNew (.ptr .httpRequest)) ∧
    GoValue.vNew (.ptr .httpRequest) ≠ .vReqHandle :=
  C9_ptr_request_gets_body_role ⟨[.ptr .httpRequest], []⟩ ⟨-1, 1, -1, -1⟩ 0
    (by decide) (by decide)

/-- Claim C10 (counterexample).  The three variants are not all equivalent:
on the test's `HeaderTest` shape — one `http.ResponseWriter` parameter,
one string result — variant 1 serves the JSON response while variant 2,
whose classifier stored the writer parameter's index in the field its
closure fills with the request handle, faults on the reflective call. -/
theorem C10_variant2_not_equivalent :
    run_v1 true ⟨[.httpResponseWriter], [.named "string"]⟩ req0 [.vStr "wasaaap"] ≠
    run_v2 true ⟨[.httpResponseWriter], [.named "string"]⟩ req0 [.vStr "wasaaap"] := by
  decide

/-- Claim C10 as amended (corrected).  Variants 1 and 3 are behaviorally
equivalent: same registration outcome and identical request handling.
Variant 2 accepts and rejects exactly the same signatures, and its return
classification matches variant 1's, but its parameter classifier swaps the
two raw-handle slots: the field its closure fills with the request handle
holds variant 1's response-writer index and vice versa. -/
theorem C10_amended_variant_relationship :
    (∀ (ex : Bool) (sig : MethodSig), NewHandlerReg_v3 ex sig = NewHandlerReg ex sig) ∧
    (∀ (sig : MethodSig) (inx : in_idx) (outx : out_idx) (req : Request)
        (results : List GoValue),
       handle_v3 sig inx outx req results = handle sig inx outx req results) ∧
    (∀ ps : List GoType, (reflectArgs ps).isOk = (reflect_in ps).isOk) ∧
    (∀ (ps : List GoType) (a : in_idx) (b : argsIndex),
       reflect_in ps = .ok a → reflectArgs ps = .ok b →
       b.ctx = a.ctx ∧ b.req = a.req ∧ b.httpReq = a.http_res ∧ b.httpRes = a.http_req) ∧
    (∀ outs : List GoType,
       reflectReturns outs =
         (reflect_out outs).map (fun o => ⟨o.res, o.err, o.code⟩)) := by
  refine ⟨?_, ?_, ?_, ?_, ?_⟩
  · intro ex sig
    cases ex with
    | false => rfl
    | true =>
      simp only [NewHandlerReg_v3, NewHandlerReg, reflect_in, reflect_out,
        reflect_in3_go_eq, reflect_out3_go_eq]
      cases h1 : reflect_in_go ⟨-1, -1, -1, -1⟩ 1 sig.params with
      | error s => rfl
      | ok inx =>
        cases h2 : reflect_out_go ⟨-1, -1, -1⟩ 0 sig.outs with
        | error s => rfl
        | ok outx => rfl
  · intro sig inx outx req results
    rfl
  · intro ps
    exact (reflectArgs_go_swap ps ⟨-1, -1, -1, -1⟩ ⟨-1, -1, -1, -1⟩ 1 rfl rfl rfl rfl).1
  · intro ps a b ha hb
    exact (reflectArgs_go_swap ps ⟨-1, -1, -1, -1⟩ ⟨-1, -1, -1, -1⟩ 1
      rfl rfl rfl rfl).2 a b ha hb
  · intro outs
    exact reflectReturns_go_eq outs ⟨-1, -1, -1⟩ ⟨-1, -1, -1⟩ 0 rfl rfl rfl

/-- Witness for the amended C10: on the signature
`(context.Context, http.Request, http.ResponseWriter, T)` the two
classifiers succeed together and variant 2's raw-handle fields hold
variant 1's indices crosswise. -/
theorem C10_amended_variant_relationship_witness :
    (⟨1, 4, 3, 2⟩ : argsIndex).ctx = (⟨1, 4, 2, 3⟩ : in_idx).ctx ∧
    (⟨1, 4, 3, 2⟩ : argsIndex).req = (⟨1, 4, 2, 3⟩ : in_idx).req ∧
    (⟨1, 4, 3, 2⟩ : argsIndex).httpReq = (⟨1, 4, 2, 3⟩ : in_idx).http_res ∧
    (⟨1, 4, 3, 2⟩ : argsIndex).httpRes = (⟨1, 4, 2, 3⟩ : in_idx).http_req :=
  C10_amended_variant_relationship.2.2.2.1
    [.context, .httpRequest, .httpResponseWriter, .named "T"] ⟨1, 4, 2, 3⟩ ⟨1, 4, 3, 2⟩
    (by decide) (by decide)

end Autojson
